import Mathlib

/-
Verification development for the NCAA women's soccer collector
(src/src/ncaa_wsoccer_collector.py).

The Python source is shallowly embedded as Lean definitions:
  * JSON payloads are modelled by the inductive `JSON` (numbers as `Int`,
    which covers all payload values the collector's logic inspects);
  * Python dicts with string keys are association lists in insertion
    order (`Row` / `PyDict`), with first-match lookup and
    replace-in-place assignment, matching CPython dict semantics;
  * fallible Python code (KeyError, ValueError, TypeError,
    AttributeError) is embedded in `Except PyErr`;
  * pandas numeric values are modelled by `Rat`, with NaN/NA as `none`.
-/

set_option maxHeartbeats 1000000

/-- JSON values as delivered by `r.json()`.  Numbers are integers: every
numeric field the collector's control flow inspects (team ids, stats) is
an integer in the payloads; fractional stat values only appear after the
pandas coercion step, which is modelled over `Rat`. -/
inductive JSON where
  | null
  | bool (b : Bool)
  | num (n : Int)
  | str (s : String)
  | arr (xs : List JSON)
  | obj (kvs : List (String × JSON))

mutual
/-- Structural equality on JSON values, modelling Python `==` on parsed
payload values (the exotic `True == 1` conflation is not modelled; the
collector only ever compares strings and numbers).  Defined mutually
with element-wise equality on arrays and objects. -/
def JSON.beq : JSON → JSON → Bool
  | .null, .null => true
  | .bool a, .bool b => a == b
  | .num a, .num b => a == b
  | .str a, .str b => a == b
  | .arr xs, .arr ys => beqL xs ys
  | .obj xs, .obj ys => beqO xs ys
  | _, _ => false

/-- Element-wise `JSON.beq` on arrays. -/
def beqL : List JSON → List JSON → Bool
  | [], [] => true
  | x :: xs, y :: ys => JSON.beq x y && beqL xs ys
  | _, _ => false

/-- Element-wise `JSON.beq` on object entry lists. -/
def beqO : List (String × JSON) → List (String × JSON) → Bool
  | [], [] => true
  | (k, v) :: xs, (k2, v2) :: ys => k == k2 && JSON.beq v v2 && beqO xs ys
  | _, _ => false
end

/-- Python exception classes that the embedded code can raise. -/
inductive PyErr where
  | keyError
  | valueError
  | typeError
  | attributeError
deriving DecidableEq

/-- A Python dict with string keys, in insertion order. -/
abbrev PyDict := List (String × JSON)

/-- A flattened player-game row (also a Python dict with string keys). -/
abbrev Row := List (String × JSON)

/-- First-match lookup in a string-keyed dict, `d[k]` when present. -/
def plookup : List (String × JSON) → String → Option JSON
  | [], _ => none
  | (k, v) :: rest, key => if k = key then some v else plookup rest key

/-- Python `k in d` for a string-keyed dict. -/
def containsKey (r : List (String × JSON)) (k : String) : Bool :=
  (plookup r k).isSome

/-- Python `d[k] = v`: replace the value in place if the key exists,
otherwise append the pair at the end (dict insertion order). -/
def setKV : List (String × JSON) → String → JSON → List (String × JSON)
  | [], key, v => [(key, v)]
  | (k, w) :: rest, key, v =>
      if k = key then (k, v) :: rest else (k, w) :: setKV rest key v

/-- Lookup in a dict keyed by arbitrary (hashable) JSON values, as used
for `teams_info` whose keys are the raw `teamId` payload values. -/
def dlookup : List (JSON × JSON) → JSON → Option JSON
  | [], _ => none
  | (k, v) :: rest, key => if JSON.beq k key then some v else dlookup rest key

/-- Assignment into a JSON-keyed dict (later duplicate keys overwrite,
as in a Python dict comprehension). -/
def dsetKV : List (JSON × JSON) → JSON → JSON → List (JSON × JSON)
  | [], key, v => [(key, v)]
  | (k, w) :: rest, key, v =>
      if JSON.beq k key then (k, v) :: rest else (k, w) :: dsetKV rest key v

/-- Python truthiness of a JSON value. -/
def pyTruthy : JSON → Bool
  | .null => false
  | .bool b => b
  | .num n => n != 0
  | .str s => !s.isEmpty
  | .arr xs => !xs.isEmpty
  | .obj kvs => !kvs.isEmpty

/-- Python `str(x)` on a payload value.  The collector only ever calls it
on strings and integers (team ids); container reprs are abbreviated. -/
def pyStr : JSON → String
  | .str s => s
  | .num n => toString n
  | .bool b => if b then "True" else "False"
  | .null => "None"
  | .arr _ => "<list>"
  | .obj _ => "<dict>"

/-- Value of a string of ASCII digits. -/
def pyNatOfDigits (l : List Char) : Nat :=
  l.foldl (fun acc c => acc * 10 + (c.toNat - '0'.toNat)) 0

/-- Whether `l` begins with the character sequence `sub`. -/
def leadsWith : List Char → List Char → Bool
  | [], _ => true
  | _ :: _, [] => false
  | a :: as, b :: bs => a == b && leadsWith as bs

/-- Substring test, Python `sub in s`, over character lists. -/
def containsSeq (sub : List Char) : List Char → Bool
  | [] => sub.isEmpty
  | c :: rest => leadsWith sub (c :: rest) || containsSeq sub rest

/-- Python `s.startswith(p)`, over the character lists. -/
def pyStartsWith (s p : String) : Bool :=
  leadsWith p.data s.data

/-- Python `s.strip()` whitespace trimming, over the character list. -/
def trimChars (l : List Char) : List Char :=
  ((l.dropWhile Char.isWhitespace).reverse.dropWhile Char.isWhitespace).reverse

/-- Python `int(s)` on a string: optional surrounding whitespace, an
optional sign, then at least one digit; otherwise `ValueError`.
(Underscore digit separators are not modelled.) -/
def pyInt (s : String) : Except PyErr Int :=
  let t := trimChars s.data
  let sgn : Int := match t with
    | '-' :: _ => -1
    | _ => 1
  let rest := match t with
    | '-' :: r => r
    | '+' :: r => r
    | r => r
  if rest.isEmpty || !(rest.all Char.isDigit) then .error .valueError
  else .ok (sgn * (pyNatOfDigits rest : Int))

/-- Python `x.get(k, d)`: succeeds on dicts, raises `AttributeError` on
any non-dict value. -/
def pyDictGet (j : JSON) (k : String) (d : JSON) : Except PyErr JSON :=
  match j with
  | .obj kvs => .ok ((plookup kvs k).getD d)
  | _ => .error .attributeError

/-- Python subscript `x[k]` with a string key: `KeyError` when a dict is
missing the key, `TypeError` on non-dict values. -/
def pySubscr (j : JSON) (k : String) : Except PyErr JSON :=
  match j with
  | .obj kvs =>
      match plookup kvs k with
      | some v => .ok v
      | none => .error .keyError
  | _ => .error .typeError

/-- Python iteration `for x in j`: lists yield elements, dicts yield
keys, strings yield characters; other values raise `TypeError`. -/
def pyIter : JSON → Except PyErr (List JSON)
  | .arr xs => .ok xs
  | .obj kvs => .ok (kvs.map (fun kv => JSON.str kv.1))
  | .str s => .ok (s.data.map (fun c => JSON.str (String.mk [c])))
  | _ => .error .typeError

/-- A value on which a `str` method (`strip`, `split`) is called must be
a string; anything else raises `AttributeError`. -/
def pyAsStr : JSON → Except PyErr String
  | .str s => .ok s
  | _ => .error .attributeError

/-- Python raw subscript `d[k]` on a dict: `KeyError` when absent. -/
def pdictIdx (d : List (String × JSON)) (k : String) : Except PyErr JSON :=
  match plookup d k with
  | some v => .ok v
  | none => .error .keyError

/-- Python `s[:4] if s else ""` on a payload value (used for the season
prefix of the game date): slices strings and lists, `TypeError` on
non-sliceable truthy values. -/
def pySlice4 (j : JSON) : Except PyErr JSON :=
  if pyTruthy j = false then .ok (.str "")
  else
    match j with
    | .str s => .ok (.str (s.take 4))
    | .arr xs => .ok (.arr (xs.take 4))
    | _ => .error .typeError

/-- Python `s.isdigit()` restricted to ASCII digits (the game-id path
segments the collector examines are ASCII). -/
def pyIsdigit (s : String) : Bool :=
  !s.isEmpty && s.data.all Char.isDigit

/-- Python `s.lower()` restricted to ASCII letters (the field names the
collector lower-cases are ASCII), written over the character list so
that it evaluates by kernel reduction. -/
def pyLower (s : String) : String :=
  String.mk (s.data.map Char.toLower)

/-- `mapM` for `Except`, written by explicit recursion so that proofs
can invert it cheaply. -/
def mapMExc {α β : Type} (f : α → Except PyErr β) : List α → Except PyErr (List β)
  | [] => .ok []
  | x :: xs => do
    let y ← f x
    let ys ← mapMExc f xs
    pure (y :: ys)

/-
── HTTP fetch wrapper (`get`, lines 46-56) ─────────────────────────────
-/

/-- The observable outcome of `session.get`: either a response with a
status code and a body (whose JSON decoding may itself fail), or a
transport-level exception (timeout, connection error, ...). -/
inductive HttpEvent where
  | response (status : Int) (body : Except Unit JSON)
  | timeout
  | connError

/-- `get` (lines 46-56): returns the parsed body on a 200 response,
`None` on any other status, and `None` on any exception (the
`except Exception` arm); a body that fails to decode as JSON raises
inside the `try` and is likewise swallowed.  The `time.sleep(DELAY)`
calls have no data-flow effect and are not modelled. -/
def get (ev : HttpEvent) : Option JSON :=
  match ev with
  | .timeout => none
  | .connError => none
  | .response st body =>
      if st = 200 then
        match body with
        | .ok j => some j
        | .error _ => none
      else none

/-
── Date reformatting in the schedule walker (lines 72-77) ──────────────
-/

/-- Python `str.split(sep)` for a single-character separator, on the
character list of the string. -/
def splitCh (c : Char) : List Char → List (List Char)
  | [] => [[]]
  | x :: xs =>
    match splitCh c xs with
    | [] => [[]]
    | h :: t => if x = c then [] :: h :: t else (x :: h) :: t

/-- The date normalisation inside `get_game_dates` (lines 74-77):
split on `-`; if there are exactly 3 segments, rebuild as
`parts[2]/parts[0]/parts[1]`; otherwise the entry is skipped. -/
def reformatDate (d : String) : Option String :=
  let parts := splitCh '-' d.data
  if parts.length = 3 then
    some (String.mk ((parts.getD 2 []) ++ '/' :: (parts.getD 0 []) ++ '/' :: (parts.getD 1 [])))
  else none

/-- Explicit inverse of the reformatting, used to state recoverability:
split a `YYYY/MM/DD` string on `/` and rebuild `MM-DD-YYYY`. -/
def unformatDate (s : String) : Option String :=
  let parts := splitCh '/' s.data
  if parts.length = 3 then
    some (String.mk ((parts.getD 1 []) ++ '-' :: (parts.getD 2 []) ++ '-' :: (parts.getD 0 [])))
  else none

/-- A dash-separated MM-DD-YYYY date assembled from its segments. -/
def mkDash (m d y : String) : String := m ++ "-" ++ d ++ "-" ++ y

/-- All characters of the string are ASCII digits. -/
def digitStr (s : String) : Bool := s.data.all Char.isDigit

/-- Well-formed MM-DD-YYYY segments: two digit characters for month and
day, four for the year. -/
def WFDate (m d y : String) : Prop :=
  m.data.length = 2 ∧ d.data.length = 2 ∧ y.data.length = 4 ∧
    digitStr m = true ∧ digitStr d = true ∧ digitStr y = true

/-
── Scoreboard expander (`get_game_ids_for_date`, lines 85-120) ─────────
-/

/-- Strip leading and trailing `/` characters, Python `url.strip("/")`. -/
def stripSlashes (s : String) : String :=
  String.mk (((s.data.dropWhile (fun c => c = '/')).reverse.dropWhile (fun c => c = '/')).reverse)

/-- `url.strip("/").split("/")[-1]`: the final path segment of a URL. -/
def lastSeg (s : String) : String :=
  String.mk ((splitCh '/' (stripSlashes s).data).getLastD [])

/-- The `meta` dict built for one kept scoreboard entry (lines 104-118):
every field is read with `.get` and a default, so a missing nested key
never fails, but calling `.get` on a non-dict value raises. -/
def buildMeta (full_id : String) (game : JSON) : Except PyErr PyDict := do
  let startDate ← pyDictGet game "startDate" (.str "")
  let home ← pyDictGet game "home" (.obj [])
  let hnames ← pyDictGet home "names" (.obj [])
  let hfull ← pyDictGet hnames "full" (.str "")
  let hseo ← pyDictGet hnames "seo" (.str "")
  let hscore ← pyDictGet home "score" (.str "")
  let hwin ← pyDictGet home "winner" (.bool false)
  let hrec ← pyDictGet home "description" (.str "")
  let away ← pyDictGet game "away" (.obj [])
  let anames ← pyDictGet away "names" (.obj [])
  let afull ← pyDictGet anames "full" (.str "")
  let aseo ← pyDictGet anames "seo" (.str "")
  let ascore ← pyDictGet away "score" (.str "")
  let awin ← pyDictGet away "winner" (.bool false)
  let arec ← pyDictGet away "description" (.str "")
  let gstate ← pyDictGet game "gameState" (.str "")
  pure [("game_id", .str full_id), ("game_date", startDate),
        ("home_team", hfull), ("home_seo", hseo), ("home_score", hscore),
        ("home_winner", hwin), ("home_record", hrec),
        ("away_team", afull), ("away_seo", aseo), ("away_score", ascore),
        ("away_winner", awin), ("away_record", arec), ("game_state", gstate)]

/-- The loop body of `get_game_ids_for_date` over the payload's game
list (lines 95-119): skip entries with a falsy `url`, skip entries whose
final URL segment is not all digits, keep `(full_id, meta)` otherwise. -/
def scoreboardEntries : List JSON → Except PyErr (List (String × PyDict))
  | [] => .ok []
  | item :: rest => do
    let game ← pyDictGet item "game" (.obj [])
    let urlJ ← pyDictGet game "url" (.str "")
    if pyTruthy urlJ = false then scoreboardEntries rest
    else do
      let url ← pyAsStr urlJ
      let fid := lastSeg url
      if pyIsdigit fid = false then scoreboardEntries rest
      else do
        let meta ← buildMeta fid game
        let more ← scoreboardEntries rest
        pure ((fid, meta) :: more)

/-- `get_game_ids_for_date` (lines 85-120), with the already-fetched
payload as input: empty result on no payload or falsy payload, else the
kept `(game id, meta)` pairs of the payload's `games` list. -/
def get_game_ids_for_date (payload : Option JSON) : Except PyErr (List (String × PyDict)) :=
  match payload with
  | none => .ok []
  | some data =>
    if pyTruthy data = false then .ok []
    else do
      let gamesJ ← pyDictGet data "games" (.arr [])
      let items ← pyIter gamesJ
      scoreboardEntries items

/-
── Boxscore flattener (`parse_boxscore`, lines 128-191) ────────────────
-/

/-- `SOCCER_STAT_FIELDS` (lines 128-135), in source order. -/
def SOCCER_STAT_FIELDS : List String :=
  ["goals", "assists", "points", "shots", "shotsOnGoal",
   "minutesPlayed", "goalsAgainst", "saves",
   "Shots", "ShotsOnGoal", "Goals", "Assists", "Points",
   "MinutesPlayed", "GoalsAgainst", "Saves",
   "gp", "gs", "min"]

/-- `teams_info = {t["teamId"]: t for t in data.get("teams", [])}`
(line 144): raw subscript access, so an entry without `teamId` raises
`KeyError`; duplicate ids overwrite as in a dict comprehension. -/
def buildTeamsInfo (ts : List JSON) : Except PyErr (List (JSON × JSON)) :=
  ts.foldlM (fun acc t => do
    let k ← pySubscr t "teamId"
    pure (dsetKV acc k t)) []

/-- Lines 147-160: resolve a team block's team info and home/away
context.  `int(team_id)` is evaluated eagerly as the default argument of
the outer `.get`, so a team id whose string form is not an integer
literal raises `ValueError` before any lookup is consulted. -/
def teamCtx (teams_info : List (JSON × JSON)) (meta : PyDict) (team_box : JSON) :
    Except PyErr (JSON × JSON × Bool × JSON × JSON) := do
  let tidJ ← pyDictGet team_box "teamId" (.str "")
  let team_id := pyStr tidJ
  let n ← pyInt team_id
  let team_inf :=
    match dlookup teams_info (JSON.str team_id) with
    | some t => t
    | none => (dlookup teams_info (JSON.num n)).getD (JSON.obj [])
  let nameFull ← pyDictGet team_inf "nameFull" JSON.null
  let nameShort ← pyDictGet team_inf "nameShort" (.str "")
  let team_name := if pyTruthy nameFull then nameFull else nameShort
  let team_seo ← pyDictGet team_inf "seoname" (.str "")
  let homeSeo := (plookup meta "home_seo").getD JSON.null
  if pyTruthy team_seo && JSON.beq team_seo homeSeo then
    pure (team_name, team_seo, true,
          (plookup meta "home_winner").getD (.bool false),
          (plookup meta "home_record").getD (.str ""))
  else
    pure (team_name, team_seo, false,
          (plookup meta "away_winner").getD (.bool false),
          (plookup meta "away_record").getD (.str ""))

/-- One step of the `SOCCER_STAT_FIELDS` loop (lines 180-182):
`if field in player: row["stat_" + field.lower()] = player[field]`. -/
def statFieldsStep (p : PyDict) (acc : Row) (f : String) : Row :=
  match plookup p f with
  | some v => setKV acc ("stat_" ++ pyLower f) v
  | none => acc

/-- The full recognised-fields loop over the fixed field list. -/
def statFieldsPhase (r : Row) (p : PyDict) : Row :=
  SOCCER_STAT_FIELDS.foldl (statFieldsStep p) r

/-- Keys skipped by the unknown-field capture (line 185). -/
def identitySkip (k : String) : Bool :=
  pyStartsWith k "__" || ["firstName", "lastName", "number", "position", "category"].contains k

/-- One step of the unknown-field capture (lines 184-189): lower-case
and prefix the key, and only write the column if not already present. -/
def genericStep (acc : Row) (kv : String × JSON) : Row :=
  if identitySkip kv.1 then acc
  else
    let col := "stat_" ++ pyLower kv.1
    if containsKey acc col then acc else acc ++ [(col, kv.2)]

/-- The full unknown-field capture over `player.items()`. -/
def genericPhase (r : Row) (p : PyDict) : Row :=
  p.foldl genericStep r

/-- The fixed identity part of a player row (lines 163-178), in source
dict order. -/
def baseRow (game_id : String) (gameDate season pf pl pn pos ptype pcat tn ts : JSON)
    (is_home : Bool) (won rcd : JSON) : Row :=
  [("game_id", JSON.str game_id), ("game_date", gameDate), ("season", season),
   ("player_first", pf), ("player_last", pl), ("player_num", pn), ("position", pos),
   ("stat_type", ptype), ("category", pcat), ("team_name", tn),
   ("team_seo", ts), ("is_home", JSON.bool is_home), ("team_won", won),
   ("team_record_at_game", rcd)]

/-- The pure core of one player row (lines 163-190): identity columns,
then the recognised stat fields, then the unknown-field capture. -/
def playerRowCore (game_id : String) (gameDate season pf pl pn pos ptype pcat tn ts : JSON)
    (is_home : Bool) (won rcd : JSON) (p : PyDict) : Row :=
  genericPhase
    (statFieldsPhase (baseRow game_id gameDate season pf pl pn pos ptype pcat tn ts is_home won rcd) p)
    p

/-- Build one player row (lines 162-190), with the fallible `.get`
accesses on `meta` and `player` made explicit. -/
def mkPlayerRow (game_id : String) (meta : PyDict) (tn ts : JSON) (is_home : Bool)
    (won rcd : JSON) (player : JSON) : Except PyErr Row := do
  let gameDate ← pdictIdx meta "game_date"
  let season ← pySlice4 gameDate
  let pf ← pyDictGet player "firstName" (.str "")
  let pl ← pyDictGet player "lastName" (.str "")
  let pn ← pyDictGet player "number" (.str "")
  let pos ← pyDictGet player "position" (.str "")
  let ptype ← pyDictGet player "__typename" (.str "")
  let pcat ← pyDictGet player "category" (.str "")
  match player with
  | .obj pd =>
      pure (playerRowCore game_id gameDate season pf pl pn pos ptype pcat tn ts is_home won rcd pd)
  | _ => .error .attributeError

/-- All rows of one `teamBoxscore` block (lines 146-190). -/
def teamRows (game_id : String) (meta : PyDict) (teams_info : List (JSON × JSON))
    (team_box : JSON) : Except PyErr (List Row) := do
  let ctx ← teamCtx teams_info meta team_box
  match ctx with
  | (tn, ts, is_home, won, rcd) => do
      let psJ ← pyDictGet team_box "playerStats" (.arr [])
      let players ← pyIter psJ
      mapMExc (mkPlayerRow game_id meta tn ts is_home won rcd) players

/-- `parse_boxscore` (lines 137-191), with the already-fetched payload
as input: empty row list when the fetch failed or the payload is falsy,
otherwise the flattened player rows of every team block. -/
def parse_boxscore (payload : Option JSON) (game_id : String) (meta : PyDict) :
    Except PyErr (List Row) :=
  match payload with
  | none => .ok []
  | some data =>
    if pyTruthy data = false then .ok []
    else do
      let teamsJ ← pyDictGet data "teams" (.arr [])
      let teamsL ← pyIter teamsJ
      let teams_info ← buildTeamsInfo teamsL
      let tbJ ← pyDictGet data "teamBoxscore" (.arr [])
      let tbs ← pyIter tbJ
      let rss ← mapMExc (teamRows game_id meta teams_info) tbs
      pure rss.flatten

/-
── Deduplication in `main` (lines 271-289) ─────────────────────────────
-/

/-- The dedup loop of `main` (lines 272-277): a `seen` set of game ids,
keeping the first occurrence of each id in order. -/
def dedupGames (seen : List String) : List (String × PyDict) → List (String × PyDict)
  | [] => []
  | gm :: rest =>
    if seen.contains gm.1 then dedupGames seen rest
    else gm :: dedupGames (gm.1 :: seen) rest

/-- The game ids for which `main` invokes `parse_boxscore` (lines
284-285): one call per entry of the deduplicated list. -/
def boxscoreCallIds (gms : List (String × PyDict)) : List String :=
  (dedupGames [] gms).map Prod.fst

/-
── Exact rational arithmetic for the aggregation stage ─────────────────

pandas numeric cells are modelled by a normalized fraction type whose
operations evaluate by kernel reduction; `none` stands for NaN/NA.
-/

/-- Euclid's algorithm with explicit fuel (the fuel is always ample
when called from `mkPRat`), so that it evaluates by kernel reduction. -/
def gcdF : Nat → Nat → Nat → Nat
  | _, 0, b => b
  | 0, _ + 1, _ => 1
  | f + 1, a + 1, b => gcdF f (b % (a + 1)) (a + 1)

/-- A rational number in lowest terms with positive denominator. -/
structure PRat where
  num : Int
  den : Nat
deriving DecidableEq

/-- Build the normalized rational `n / d` (sign moved to the numerator,
fraction reduced); `d = 0` never occurs on guarded paths. -/
def mkPRat (n d : Int) : PRat :=
  if d = 0 then ⟨0, 1⟩
  else
    let s : Int := if d < 0 then -1 else 1
    let n2 := s * n
    let dn : Nat := d.natAbs
    let g := gcdF (n2.natAbs + dn + 1) n2.natAbs dn
    ⟨n2 / (g : Int), dn / g⟩

/-- Embed an integer. -/
def PRat.ofInt (n : Int) : PRat := ⟨n, 1⟩

/-- Addition. -/
def PRat.add (a b : PRat) : PRat :=
  mkPRat (a.num * b.den + b.num * a.den) ((a.den : Int) * b.den)

/-- Multiplication. -/
def PRat.mul (a b : PRat) : PRat :=
  mkPRat (a.num * b.num) ((a.den : Int) * b.den)

/-- Division. -/
def PRat.div (a b : PRat) : PRat :=
  mkPRat (a.num * b.den) ((a.den : Int) * b.num)

/-- Order, decidably. -/
def PRat.leB (a b : PRat) : Bool :=
  decide (a.num * (b.den : Int) ≤ b.num * (a.den : Int))

/-- Sum of a list of rationals. -/
def sumP (l : List PRat) : PRat :=
  l.foldr PRat.add (PRat.ofInt 0)

/-- The literal `0.5` of line 243. -/
def pHalf : PRat := ⟨1, 2⟩

/-
── Season aggregator (`aggregate_player_season`, lines 198-246) ────────
-/

/-- Lower-case every column name of a row (line 204). -/
def lowerRow (r : Row) : Row :=
  r.map (fun kv => (pyLower kv.1, kv.2))

/-- First-occurrence deduplication of strings. -/
def dedupStr (seen : List String) : List String → List String
  | [] => []
  | c :: rest =>
    if seen.contains c then dedupStr seen rest
    else c :: dedupStr (c :: seen) rest

/-- The columns of `pd.DataFrame(rows)`: the union of the rows' keys in
first-appearance order. -/
def tableCols (rows : List Row) : List String :=
  dedupStr [] ((rows.map (fun r => r.map Prod.fst)).flatten)

/-- `stat_cols` (line 207): the lower-cased columns starting with
`stat_`. -/
def statColsOf (rows : List Row) : List String :=
  (tableCols (rows.map lowerRow)).filter (fun c => pyStartsWith c "stat_")

/-- Decimal parsing for `pd.to_numeric(..., errors="coerce")` on a
string cell: optional sign, digits with at most one decimal point
(exponent notation is not modelled; no claim depends on it). -/
def parseNumQ (s : String) : Option PRat :=
  let t := trimChars s.data
  let sgn : Int := match t with
    | '-' :: _ => -1
    | _ => 1
  let rest := match t with
    | '-' :: r => r
    | '+' :: r => r
    | r => r
  match splitCh '.' rest with
  | [a] =>
    if !a.isEmpty && a.all Char.isDigit then some (PRat.ofInt (sgn * pyNatOfDigits a))
    else none
  | [a, b] =>
    if (!a.isEmpty || !b.isEmpty) && a.all Char.isDigit && b.all Char.isDigit then
      some (mkPRat (sgn * ((pyNatOfDigits a : Int) * (10 : Int) ^ b.length + pyNatOfDigits b))
        ((10 : Int) ^ b.length))
    else none
  | _ => none

/-- `pd.to_numeric(cell, errors="coerce")` on one cell: absent cells and
nulls are NaN, booleans coerce to 0/1, unparseable values coerce to NaN
(`none`). -/
def pdToNumeric : Option JSON → Option PRat
  | none => none
  | some .null => none
  | some (.bool b) => some (PRat.ofInt (if b then 1 else 0))
  | some (.num n) => some (PRat.ofInt n)
  | some (.str s) => parseNumQ s
  | some (.arr _) => none
  | some (.obj _) => none

/-- A cell counted by pandas `count` aggregation: present and not null. -/
def cellNonNA (r : Row) (c : String) : Bool :=
  match plookup r c with
  | some JSON.null => false
  | some _ => true
  | none => false

/-- The contribution of one `team_won` cell to the `"sum"` aggregation:
booleans count 1/0, numbers count their value. -/
def winVal : Option JSON → PRat
  | some (.bool b) => PRat.ofInt (if b then 1 else 0)
  | some (.num n) => PRat.ofInt n
  | _ => PRat.ofInt 0

/-- `group_cols` (line 211). -/
def groupColsList : List String :=
  ["player_first", "player_last", "team_name", "team_seo", "season"]

/-- The groupby key of a row: the values of the five identity columns,
or `none` when any of them is absent or null (pandas `groupby` drops
rows with a NaN key). -/
def keyOf (r : Row) : Option (List JSON) :=
  let vs := groupColsList.map (fun c => plookup r c)
  if vs.all (fun v => match v with
      | some j => !(JSON.beq j JSON.null)
      | none => false) then
    some (vs.map (fun v => v.getD JSON.null))
  else none

/-- Element-wise `JSON.beq` on group keys. -/
def jlistBeq : List JSON → List JSON → Bool
  | [], [] => true
  | x :: xs, y :: ys => JSON.beq x y && jlistBeq xs ys
  | _, _ => false

/-- First-occurrence deduplication of group keys. -/
def dedupKeys (seen : List (List JSON)) : List (List JSON) → List (List JSON)
  | [] => []
  | k :: rest =>
    if seen.any (fun k2 => jlistBeq k2 k) then dedupKeys seen rest
    else k :: dedupKeys (k :: seen) rest

/-- The rows of one group. -/
def groupRows (rows : List Row) (k : List JSON) : List Row :=
  rows.filter (fun r =>
    match keyOf r with
    | some k2 => jlistBeq k2 k
    | none => false)

/-- The `"sum"` aggregation of one stat column over a group: pandas sums
with `skipna=True`, so NaN cells contribute 0 and an all-NaN group sums
to 0. -/
def statSum (grp : List Row) (c : String) : PRat :=
  sumP (grp.map (fun r => (pdToNumeric (plookup r c)).getD (PRat.ofInt 0)))

/-- The start proxy (line 225): the coerced minutes cell is `>= 60`
(false on NaN, as in pandas). -/
def minutesPred (mc : String) (r : Row) : Bool :=
  match pdToNumeric (plookup r mc) with
  | some q => PRat.leB (PRat.ofInt 60) q
  | none => false

/-- One output row of `aggregate_player_season`.  For `est_starts` and
`start_rate`, the outer `Option` records whether the column exists at
all (it is only added when a minutes column was found); for
`production_per_game` likewise (only added when both goal and assist
columns exist).  The inner `Option ℚ` of the rate columns is the cell
value, `none` being pandas `NA`. -/
structure AggRow where
  key : List JSON
  statSums : List (String × PRat)
  games_played : Nat
  team_wins_in : PRat
  est_starts : Option Nat
  start_rate : Option (Option PRat)
  win_rate : Option PRat
  production_per_game : Option (Option PRat)

/-- Build the aggregated output row of one group (lines 213-244). -/
def mkAggRow (rows : List Row) (statCols : List String) (minCol : Option String)
    (hasG hasA : Bool) (k : List JSON) : AggRow :=
  let grp := groupRows rows k
  let gp := grp.countP (fun r => cellNonNA r "game_id")
  let wins := sumP (grp.map (fun r => winVal (plookup r "team_won")))
  let est := minCol.map (fun mc => (grp.filter (minutesPred mc)).countP (fun r => cellNonNA r "game_id"))
  { key := k
    statSums := statCols.map (fun c => (c, statSum grp c))
    games_played := gp
    team_wins_in := wins
    est_starts := est
    start_rate := est.map (fun e =>
      if gp = 0 then none else some (PRat.div (PRat.ofInt e) (PRat.ofInt gp)))
    win_rate := if gp = 0 then none else some (PRat.div wins (PRat.ofInt gp))
    production_per_game :=
      if hasG && hasA then
        some (if gp = 0 then none
              else some (PRat.div
                (PRat.add (statSum grp "stat_goals") (PRat.mul pHalf (statSum grp "stat_assists")))
                (PRat.ofInt gp)))
      else none }

/-- `min_col` (line 222): the first stat column whose name contains
`minute` or equals `stat_min`. -/
def minColOf (rows0 : List Row) : Option String :=
  (statColsOf rows0).find? (fun c => containsSeq "minute".data c.data || c == "stat_min")

/-- The group keys present in the lower-cased rows, in first-occurrence
order (rows with a NaN key component are dropped, as pandas does). -/
def aggKeys (rows0 : List Row) : List (List JSON) :=
  dedupKeys [] ((rows0.map lowerRow).filterMap keyOf)

/-- `aggregate_player_season` (lines 198-246): empty output on empty
input; otherwise lower-case columns, coerce stat columns, group by the
five identity columns, and emit one aggregated row per group.
`games_played` is the pandas `"count"` of the group's `game_id` cells
(non-null cells only), `team_wins_in` the `"sum"` of `team_won`.  The
`est_starts`/`start_rate` columns exist only when a minutes column was
found (line 222), `production_per_game` only when both `stat_goals` and
`stat_assists` exist (lines 239-241). -/
def aggregate_player_season (rows0 : List Row) : List AggRow :=
  if rows0.isEmpty then []
  else
    (aggKeys rows0).map
      (mkAggRow (rows0.map lowerRow) (statColsOf rows0) (minColOf rows0)
        ((statColsOf rows0).contains "stat_goals") ((statColsOf rows0).contains "stat_assists"))

/-- Sum of a stat column as recorded in an output row. -/
def qlookup : List (String × PRat) → String → Option PRat
  | [], _ => none
  | (k, v) :: rest, key => if k = key then some v else qlookup rest key

/-- The recorded sum of a stat column in an aggregated row, 0 if the
column is not recorded. -/
def sumLookup (a : AggRow) (c : String) : PRat :=
  (qlookup a.statSums c).getD (PRat.ofInt 0)

/-
── Spec-side helpers and concrete test inputs ──────────────────────────
-/

/-- Whether a JSON value is a string. -/
def isStrB : JSON → Bool
  | .str _ => true
  | _ => false

/-- Whether a JSON value is a dict. -/
def isObjB : JSON → Bool
  | .obj _ => true
  | _ => false

/-- Shape condition on a `home`/`away` sub-object: a dict whose `names`
value (default empty dict) is a dict. -/
def goodSide : JSON → Bool
  | .obj h => isObjB ((plookup h "names").getD (.obj []))
  | _ => false

/-- Shape condition on the `game` sub-dict of one scoreboard entry under
which every defensive `.get` in the expander succeeds: the `url` value
(default `""`) is a string and the `home`/`away` values (default empty
dict) are dicts whose `names` values are dicts. -/
def goodGame (g : List (String × JSON)) : Bool :=
  isStrB ((plookup g "url").getD (.str "")) &&
  goodSide ((plookup g "home").getD (.obj [])) &&
  goodSide ((plookup g "away").getD (.obj []))

/-- Shape condition on one scoreboard entry: a dict whose `game` value
(default empty dict) is a dict satisfying `goodGame`. -/
def goodItem (item : JSON) : Bool :=
  match item with
  | .obj kvs =>
      match (plookup kvs "game").getD (.obj []) with
      | .obj g => goodGame g
      | _ => false
  | _ => false

/-- The `url` field of a scoreboard entry as read by the expander
(empty string when absent or non-string). -/
def urlOf (item : JSON) : String :=
  match item with
  | .obj kvs =>
      match (plookup kvs "game").getD (.obj []) with
      | .obj g =>
          match (plookup g "url").getD (.str "") with
          | .str u => u
          | _ => ""
      | _ => ""
  | _ => ""

/-- Boxscore payload whose `teams` list has an entry without `teamId`. -/
def payloadTeamsNoId : JSON :=
  .obj [("teams", .arr [.obj [("nameFull", .str "X")]]),
        ("teamBoxscore", .arr [])]

/-- Boxscore payload whose `teamBoxscore` block has no `teamId`. -/
def payloadBoxNoId : JSON :=
  .obj [("teams", .arr []),
        ("teamBoxscore", .arr [.obj []])]

/-- Boxscore payload whose team resolves to an empty `seoname`. -/
def payloadEmptySeo : JSON :=
  .obj [("teams", .arr [.obj [("teamId", .num 1), ("nameFull", .str "Alpha U"),
                              ("seoname", .str "")]]),
        ("teamBoxscore", .arr [.obj [("teamId", .num 1),
                                     ("playerStats", .arr [.obj [("firstName", .str "Jo")]])]])]

/-- Meta record whose recorded home seo is the empty string. -/
def metaEmptySeo : PyDict :=
  [("game_date", .str "2024-09-01"), ("home_seo", .str ""),
   ("home_winner", .bool true), ("home_record", .str "1-0"),
   ("away_winner", .bool false), ("away_record", .str "0-1")]

/-- The single row `parse_boxscore` emits for `payloadEmptySeo`. -/
def rowEmptySeo : Row :=
  baseRow "7" (.str "2024-09-01") (.str "2024") (.str "Jo") (.str "") (.str "")
    (.str "") (.str "") (.str "") (.str "Alpha U") (.str "") false (.bool false) (.str "0-1")

/-- Boxscore payload whose team has the non-empty `seoname` that matches
the meta's recorded home seo. -/
def payloadAlphaSeo : JSON :=
  .obj [("teams", .arr [.obj [("teamId", .num 1), ("nameFull", .str "Alpha U"),
                              ("seoname", .str "alpha")]]),
        ("teamBoxscore", .arr [.obj [("teamId", .num 1),
                                     ("playerStats", .arr [.obj [("firstName", .str "Jo")]])]])]

/-- Meta record with home seo `"alpha"`. -/
def metaAlphaSeo : PyDict :=
  [("game_date", .str "2024-09-01"), ("home_seo", .str "alpha"),
   ("home_winner", .bool true), ("home_record", .str "1-0"),
   ("away_winner", .bool false), ("away_record", .str "0-1")]

/-- The single row `parse_boxscore` emits for `payloadAlphaSeo`. -/
def rowAlphaSeo : Row :=
  baseRow "7" (.str "2024-09-01") (.str "2024") (.str "Jo") (.str "") (.str "")
    (.str "") (.str "") (.str "") (.str "Alpha U") (.str "alpha") true (.bool true) (.str "1-0")

/-- A complete player-game row with numeric goal/assist stats. -/
def rowGoals : Row :=
  [("player_first", .str "A"), ("player_last", .str "B"), ("team_name", .str "T"),
   ("team_seo", .str "t"), ("season", .str "2024"), ("game_id", .str "7"),
   ("team_won", .bool true), ("stat_goals", .num 2), ("stat_assists", .num 1)]

/-- The aggregation of `[rowGoals]`. -/
def aggGoals : AggRow :=
  { key := [.str "A", .str "B", .str "T", .str "t", .str "2024"]
    statSums := [("stat_goals", PRat.ofInt 2), ("stat_assists", PRat.ofInt 1)]
    games_played := 1
    team_wins_in := PRat.ofInt 1
    est_starts := none
    start_rate := none
    win_rate := some (PRat.ofInt 1)
    production_per_game := some (some ⟨5, 2⟩) }

/-- A player-game row whose `game_id` cell is null (NaN in the frame). -/
def rowNullGid : Row :=
  [("player_first", .str "A"), ("player_last", .str "B"), ("team_name", .str "T"),
   ("team_seo", .str "t"), ("season", .str "2024"), ("game_id", JSON.null),
   ("team_won", .bool true)]

/-- The aggregation of `[rowNullGid]`: a group whose pandas `count` of
`game_id` is 0. -/
def aggNullGid : AggRow :=
  { key := [.str "A", .str "B", .str "T", .str "t", .str "2024"]
    statSums := []
    games_played := 0
    team_wins_in := PRat.ofInt 1
    est_starts := none
    start_rate := none
    win_rate := none
    production_per_game := none }

/-- A plain row without stat columns. -/
def rowPlain : Row :=
  [("player_first", .str "A"), ("player_last", .str "B"), ("team_name", .str "T"),
   ("team_seo", .str "t"), ("season", .str "2024"), ("game_id", .str "7"),
   ("team_won", .bool true)]

/-- The aggregation of `[rowPlain]`. -/
def aggPlain : AggRow :=
  { key := [.str "A", .str "B", .str "T", .str "t", .str "2024"]
    statSums := []
    games_played := 1
    team_wins_in := PRat.ofInt 1
    est_starts := none
    start_rate := none
    win_rate := some (PRat.ofInt 1)
    production_per_game := none }

/-- A scoreboard entry whose URL segment is numeric. -/
def itemKeep : JSON := .obj [("game", .obj [("url", .str "/game/6348656")])]

/-- A scoreboard entry whose URL segment is not numeric. -/
def itemDrop : JSON := .obj [("game", .obj [("url", .str "/game/abc")])]

/-- A player record carrying two case-variants of the goals field. -/
def playerTwoGoals : PyDict := [("goals", .num 1), ("Goals", .num 2)]

/-
── Helper lemmas ───────────────────────────────────────────────────────
-/

theorem bindExc_ok {α β : Type} {e : Except PyErr α} {f : α → Except PyErr β} {b : β}
    (h : e >>= f = .ok b) : ∃ a, e = .ok a ∧ f a = .ok b := by
  cases e with
  | error err => simp [Bind.bind, Except.bind] at h
  | ok a => exact ⟨a, rfl, by simpa [Bind.bind, Except.bind] using h⟩

theorem mapMExc_ok_mem {α β : Type} {f : α → Except PyErr β} :
    ∀ {xs : List α} {ys : List β}, mapMExc f xs = .ok ys →
      ∀ y ∈ ys, ∃ x ∈ xs, f x = .ok y := by
  intro xs
  induction xs with
  | nil =>
    intro ys h y hy
    simp [mapMExc] at h
    subst h
    simp at hy
  | cons x rest ih =>
    intro ys h y hy
    simp only [mapMExc] at h
    obtain ⟨y0, hy0, h⟩ := bindExc_ok h
    obtain ⟨ys0, hys0, h⟩ := bindExc_ok h
    simp only [pure, Except.pure, Except.ok.injEq] at h
    subst h
    rcases List.mem_cons.mp hy with hy | hy
    · exact ⟨x, by simp, by rw [hy]; exact hy0⟩
    · obtain ⟨x2, hx2, hfx2⟩ := ih hys0 y hy
      exact ⟨x2, by simp [hx2], hfx2⟩

theorem plookup_setKV_self (r : List (String × JSON)) (key : String) (v : JSON) :
    plookup (setKV r key v) key = some v := by
  induction r with
  | nil => simp [setKV, plookup]
  | cons kv rest ih =>
    obtain ⟨k, w⟩ := kv
    by_cases h : k = key
    · subst h; simp [setKV, plookup]
    · simp [setKV, h, plookup, ih]

theorem plookup_setKV_ne (r : List (String × JSON)) {key k : String} (h : key ≠ k) (v : JSON) :
    plookup (setKV r key v) k = plookup r k := by
  induction r with
  | nil => simp [setKV, plookup, h]
  | cons kv rest ih =>
    obtain ⟨k0, w⟩ := kv
    by_cases h0 : k0 = key
    · subst h0; simp [setKV, plookup, h]
    · simp [setKV, h0, plookup, ih]

theorem containsKey_setKV (r : List (String × JSON)) (key : String) (v : JSON) {k : String}
    (h : containsKey r k = true) : containsKey (setKV r key v) k = true := by
  by_cases hk : key = k
  · subst hk; simp [containsKey, plookup_setKV_self]
  · simpa [containsKey, plookup_setKV_ne r hk v] using h

theorem plookup_append_left {r : List (String × JSON)} {k : String}
    (h : containsKey r k = true) (l2 : List (String × JSON)) :
    plookup (r ++ l2) k = plookup r k := by
  induction r with
  | nil => simp [containsKey, plookup] at h
  | cons kv rest ih =>
    obtain ⟨k0, w⟩ := kv
    by_cases h0 : k0 = k
    · subst h0; simp [plookup]
    · simp only [containsKey, plookup, h0, if_false] at h
      simp [plookup, h0, ih h]

theorem containsKey_append_left {r : List (String × JSON)} {k : String}
    (h : containsKey r k = true) (l2 : List (String × JSON)) :
    containsKey (r ++ l2) k = true := by
  simpa [containsKey, plookup_append_left h l2] using h

theorem statFold_plookup (p : PyDict) (k : String) :
    ∀ (fields : List String) (r : Row),
      (∀ f ∈ fields, ("stat_" ++ pyLower f) ≠ k) →
      plookup (List.foldl (statFieldsStep p) r fields) k = plookup r k := by
  intro fields
  induction fields with
  | nil => intro r _; rfl
  | cons f rest ih =>
    intro r hne
    have hstep : plookup (statFieldsStep p r f) k = plookup r k := by
      unfold statFieldsStep
      cases plookup p f with
      | none => rfl
      | some v => exact plookup_setKV_ne r (hne f (by simp)) v
    simp only [List.foldl_cons]
    rw [ih (statFieldsStep p r f) (fun g hg => hne g (by simp [hg])), hstep]

theorem statFold_containsKey (p : PyDict) (k : String) :
    ∀ (fields : List String) (r : Row), containsKey r k = true →
      containsKey (List.foldl (statFieldsStep p) r fields) k = true := by
  intro fields
  induction fields with
  | nil => intro r h; exact h
  | cons f rest ih =>
    intro r h
    have hstep : containsKey (statFieldsStep p r f) k = true := by
      unfold statFieldsStep
      cases plookup p f with
      | none => exact h
      | some v => exact containsKey_setKV r _ v h
    simpa only [List.foldl_cons] using ih _ hstep

theorem genericFold_plookup (k : String) :
    ∀ (p : PyDict) (r : Row), containsKey r k = true →
      plookup (List.foldl genericStep r p) k = plookup r k := by
  intro p
  induction p with
  | nil => intro r _; rfl
  | cons kv rest ih =>
    intro r h
    have hstep : plookup (genericStep r kv) k = plookup r k ∧
        containsKey (genericStep r kv) k = true := by
      unfold genericStep
      by_cases h1 : identitySkip kv.1
      · simp [h1, h]
      · by_cases h2 : containsKey r ("stat_" ++ pyLower kv.1)
        · simp [h1, h2, h]
        · simp only [h1, h2, if_false, Bool.false_eq_true]
          exact ⟨plookup_append_left h _, containsKey_append_left h _⟩
    simp only [List.foldl_cons]
    rw [ih _ hstep.2, hstep.1]

theorem statFold_head (p : PyDict) (k0 : String) (v0 : JSON) :
    ∀ (fields : List String) (rest : List (String × JSON)),
      (∀ f ∈ fields, ("stat_" ++ pyLower f) ≠ k0) →
      ∃ rest2, List.foldl (statFieldsStep p) ((k0, v0) :: rest) fields = (k0, v0) :: rest2 := by
  intro fields
  induction fields with
  | nil => intro rest _; exact ⟨rest, rfl⟩
  | cons f fs ih =>
    intro rest hne
    have hstep : ∃ rest1, statFieldsStep p ((k0, v0) :: rest) f = (k0, v0) :: rest1 := by
      unfold statFieldsStep
      cases plookup p f with
      | none => exact ⟨rest, rfl⟩
      | some v =>
        refine ⟨setKV rest ("stat_" ++ pyLower f) v, ?_⟩
        have : k0 ≠ ("stat_" ++ pyLower f) := fun he => hne f (by simp) he.symm
        simp [setKV, this]
    obtain ⟨rest1, h1⟩ := hstep
    obtain ⟨rest2, h2⟩ := ih rest1 (fun g hg => hne g (by simp [hg]))
    exact ⟨rest2, by simp only [List.foldl_cons, h1, h2]⟩

theorem genericFold_head (k0 : String) (v0 : JSON) :
    ∀ (p : PyDict) (rest : List (String × JSON)),
      ∃ rest2, List.foldl genericStep ((k0, v0) :: rest) p = (k0, v0) :: rest2 := by
  intro p
  induction p with
  | nil => intro rest; exact ⟨rest, rfl⟩
  | cons kv ps ih =>
    intro rest
    have hstep : ∃ rest1, genericStep ((k0, v0) :: rest) kv = (k0, v0) :: rest1 := by
      unfold genericStep
      by_cases h1 : identitySkip kv.1
      · simp only [h1, if_true]; exact ⟨rest, rfl⟩
      · by_cases h2 : containsKey ((k0, v0) :: rest) ("stat_" ++ pyLower kv.1)
        · simp only [h1, h2, if_false, if_true, Bool.false_eq_true]
          exact ⟨rest, rfl⟩
        · simp only [h1, h2, if_false, Bool.false_eq_true]
          exact ⟨rest ++ [("stat_" ++ pyLower kv.1, kv.2)], by simp⟩
    obtain ⟨rest1, h1⟩ := hstep
    obtain ⟨rest2, h2⟩ := ih rest1
    exact ⟨rest2, by simp only [List.foldl_cons, h1, h2]⟩

theorem splitCh_no_sep {c : Char} : ∀ {l : List Char}, (∀ x ∈ l, x ≠ c) → splitCh c l = [l] := by
  intro l
  induction l with
  | nil => intro _; rfl
  | cons x xs ih =>
    intro h
    have hx : x ≠ c := h x (by simp)
    rw [splitCh, ih (fun y hy => h y (by simp [hy]))]
    simp [hx]

theorem splitCh_ne_nil (c : Char) : ∀ l : List Char, splitCh c l ≠ [] := by
  intro l
  induction l with
  | nil => simp [splitCh]
  | cons x xs ih =>
    rw [splitCh]
    cases hs : splitCh c xs with
    | nil => exact absurd hs ih
    | cons h t =>
      by_cases hx : x = c
      · simp [hx]
      · simp [hx]

theorem splitCh_sep (c : Char) :
    ∀ (a b : List Char), (∀ x ∈ a, x ≠ c) →
      splitCh c (a ++ c :: b) = a :: splitCh c b := by
  intro a
  induction a with
  | nil =>
    intro b _
    rw [List.nil_append, splitCh]
    cases hs : splitCh c b with
    | nil => exact absurd hs (splitCh_ne_nil c b)
    | cons h t => simp
  | cons x xs ih =>
    intro b h
    have hx : x ≠ c := h x (by simp)
    rw [List.cons_append, splitCh, ih b (fun y hy => h y (by simp [hy]))]
    simp [hx]

theorem JSON.beq_refl : ∀ a : JSON, JSON.beq a a = true
  | .null => rfl
  | .bool b => by simp [JSON.beq]
  | .num n => by simp [JSON.beq]
  | .str s => by simp [JSON.beq]
  | .arr [] => rfl
  | .arr (x :: xs) => by
      have h1 := JSON.beq_refl x
      have h2 := JSON.beq_refl (.arr xs)
      rw [JSON.beq] at h2 ⊢
      rw [beqL, h1, h2]
      rfl
  | .obj [] => rfl
  | .obj ((k, v) :: xs) => by
      have h1 := JSON.beq_refl v
      have h2 := JSON.beq_refl (.obj xs)
      rw [JSON.beq] at h2 ⊢
      rw [beqO, h1, h2]
      simp

theorem jlistBeq_refl : ∀ k : List JSON, jlistBeq k k = true := by
  intro k
  induction k with
  | nil => rfl
  | cons x xs ih => simp [jlistBeq, JSON.beq_refl, ih]

theorem dedupGames_count (gid : String) :
    ∀ (l : List (String × PyDict)) (seen : List String),
      ((dedupGames seen l).map Prod.fst).count gid =
        if seen.contains gid then 0
        else if (l.map Prod.fst).contains gid then 1 else 0 := by
  intro l
  induction l with
  | nil => intro seen; simp [dedupGames]
  | cons gm rest ih =>
    intro seen
    by_cases hc : seen.contains gm.1 = true
    · rw [dedupGames, if_pos hc, ih seen, List.map_cons]
      by_cases he : gid = gm.1
      · subst he
        have hm : gm.1 ∈ seen := by simpa using hc
        simp [hc, hm]
      · have hcc : ((gm.1 :: List.map Prod.fst rest).contains gid) =
            ((List.map Prod.fst rest).contains gid) := by
          simp [List.contains_cons, he]
        rw [hcc]
    · rw [dedupGames, if_neg hc, List.map_cons, List.map_cons, List.count_cons,
        ih (gm.1 :: seen)]
      by_cases he : gid = gm.1
      · subst he
        have h1 : ((gm.1 :: seen).contains gm.1) = true := by simp [List.contains_cons]
        have h2 : ((gm.1 :: List.map Prod.fst rest).contains gm.1) = true := by
          simp [List.contains_cons]
        have hm : ¬gm.1 ∈ seen := by simpa using hc
        rw [h1, h2]
        simp [hc, hm]
      · have hb : (gid == gm.1) = false := by simpa using he
        have he2 : ¬gm.1 = gid := fun h => he h.symm
        have hsc : ((gm.1 :: seen).contains gid) = (seen.contains gid) := by
          simp [List.contains_cons, he]
        have hcc : ((gm.1 :: List.map Prod.fst rest).contains gid) =
            ((List.map Prod.fst rest).contains gid) := by
          simp [List.contains_cons, he]
        rw [hsc, hcc]
        simp [hb, he2]

theorem dedupKeys_subset :
    ∀ (l : List (List JSON)) (seen : List (List JSON)) (k : List JSON),
      k ∈ dedupKeys seen l → k ∈ l := by
  intro l
  induction l with
  | nil => intro seen k h; simp [dedupKeys] at h
  | cons k0 rest ih =>
    intro seen k h
    rw [dedupKeys] at h
    by_cases hc : seen.any (fun k2 => jlistBeq k2 k0) = true
    · rw [if_pos hc] at h
      exact List.mem_cons_of_mem _ (ih seen k h)
    · rw [if_neg hc] at h
      rcases List.mem_cons.mp h with h | h
      · simp [h]
      · exact List.mem_cons_of_mem _ (ih _ k h)

theorem qlookup_map_self :
    ∀ (l : List String) (c : String) (f : String → PRat), c ∈ l →
      qlookup (l.map (fun x => (x, f x))) c = some (f c) := by
  intro l
  induction l with
  | nil => intro c f h; simp at h
  | cons x xs ih =>
    intro c f h
    by_cases he : x = c
    · subst he; simp [qlookup]
    · rcases List.mem_cons.mp h with h | h
      · exact absurd h.symm he
      · simp [qlookup, he, ih c f h]

theorem teamCtx_ok_shape {ti : List (JSON × JSON)} {meta : PyDict} {tb : JSON}
    {tn ts : JSON} {hm : Bool} {w rcd : JSON}
    (h : teamCtx ti meta tb = .ok (tn, ts, hm, w, rcd)) :
    hm = (pyTruthy ts && JSON.beq ts ((plookup meta "home_seo").getD JSON.null)) ∧
    w = (if pyTruthy ts && JSON.beq ts ((plookup meta "home_seo").getD JSON.null)
         then (plookup meta "home_winner").getD (.bool false)
         else (plookup meta "away_winner").getD (.bool false)) ∧
    rcd = (if pyTruthy ts && JSON.beq ts ((plookup meta "home_seo").getD JSON.null)
           then (plookup meta "home_record").getD (.str "")
           else (plookup meta "away_record").getD (.str "")) := by
  unfold teamCtx at h
  obtain ⟨tidJ, h1, h⟩ := bindExc_ok h
  obtain ⟨n, h2, h⟩ := bindExc_ok h
  obtain ⟨nameFull, h3, h⟩ := bindExc_ok h
  obtain ⟨nameShort, h4, h⟩ := bindExc_ok h
  obtain ⟨team_seo, h5, h⟩ := bindExc_ok h
  by_cases hcond : (pyTruthy team_seo &&
      JSON.beq team_seo ((plookup meta "home_seo").getD JSON.null)) = true
  · rw [if_pos hcond] at h
    simp only [pure, Except.pure, Except.ok.injEq, Prod.mk.injEq] at h
    obtain ⟨-, hts, hhm, hw, hrcd⟩ := h
    subst hts
    exact ⟨by rw [← hhm, hcond], by rw [← hw, if_pos hcond], by rw [← hrcd, if_pos hcond]⟩
  · rw [if_neg hcond] at h
    simp only [pure, Except.pure, Except.ok.injEq, Prod.mk.injEq] at h
    obtain ⟨-, hts, hhm, hw, hrcd⟩ := h
    subst hts
    have hcf : (pyTruthy team_seo &&
        JSON.beq team_seo ((plookup meta "home_seo").getD JSON.null)) = false := by
      simpa using hcond
    exact ⟨by rw [← hhm, hcf], by rw [← hw, if_neg hcond], by rw [← hrcd, if_neg hcond]⟩

theorem mkPlayerRow_ok_shape {game_id : String} {meta : PyDict} {tn ts : JSON}
    {hm : Bool} {w rcd : JSON} {player : JSON} {r : Row}
    (h : mkPlayerRow game_id meta tn ts hm w rcd player = .ok r) :
    ∃ gameDate season pf pl pn pos ptype pcat pd,
      r = playerRowCore game_id gameDate season pf pl pn pos ptype pcat tn ts hm w rcd pd := by
  unfold mkPlayerRow at h
  obtain ⟨gameDate, h1, h⟩ := bindExc_ok h
  obtain ⟨season, h2, h⟩ := bindExc_ok h
  obtain ⟨pf, h3, h⟩ := bindExc_ok h
  obtain ⟨pl, h4, h⟩ := bindExc_ok h
  obtain ⟨pn, h5, h⟩ := bindExc_ok h
  obtain ⟨pos, h6, h⟩ := bindExc_ok h
  obtain ⟨ptype, h7, h⟩ := bindExc_ok h
  obtain ⟨pcat, h8, h⟩ := bindExc_ok h
  cases player with
  | obj pd =>
    simp only [pure, Except.pure, Except.ok.injEq] at h
    exact ⟨gameDate, season, pf, pl, pn, pos, ptype, pcat, pd, h.symm⟩
  | null => simp at h
  | bool b => simp at h
  | num n => simp at h
  | str s => simp at h
  | arr xs => simp at h

theorem teamRows_ok_shape {game_id : String} {meta : PyDict}
    {ti : List (JSON × JSON)} {tb : JSON} {rs : List Row}
    (h : teamRows game_id meta ti tb = .ok rs) :
    ∀ r ∈ rs, ∃ gameDate season pf pl pn pos ptype pcat tn ts pd,
      r = playerRowCore game_id gameDate season pf pl pn pos ptype pcat tn ts
            (pyTruthy ts && JSON.beq ts ((plookup meta "home_seo").getD JSON.null))
            (if pyTruthy ts && JSON.beq ts ((plookup meta "home_seo").getD JSON.null)
             then (plookup meta "home_winner").getD (.bool false)
             else (plookup meta "away_winner").getD (.bool false))
            (if pyTruthy ts && JSON.beq ts ((plookup meta "home_seo").getD JSON.null)
             then (plookup meta "home_record").getD (.str "")
             else (plookup meta "away_record").getD (.str "")) pd := by
  unfold teamRows at h
  obtain ⟨ctx, hctx, h⟩ := bindExc_ok h
  obtain ⟨tn, ts, hmB, w, rcd⟩ := ctx
  obtain ⟨hhm, hw, hrcd⟩ := teamCtx_ok_shape hctx
  obtain ⟨psJ, hps, h⟩ := bindExc_ok h
  obtain ⟨players, hpl, h⟩ := bindExc_ok h
  intro r hr
  obtain ⟨player, hpmem, hrow⟩ := mapMExc_ok_mem h r hr
  obtain ⟨gameDate, season, pf, pl, pn, pos, ptype, pcat, pd, hshape⟩ :=
    mkPlayerRow_ok_shape hrow
  subst hhm hw hrcd
  exact ⟨gameDate, season, pf, pl, pn, pos, ptype, pcat, tn, ts, pd, hshape⟩

theorem parse_boxscore_ok_shape {payload : Option JSON} {game_id : String}
    {meta : PyDict} {rows : List Row}
    (h : parse_boxscore payload game_id meta = .ok rows) :
    ∀ r ∈ rows, ∃ gameDate season pf pl pn pos ptype pcat tn ts pd,
      r = playerRowCore game_id gameDate season pf pl pn pos ptype pcat tn ts
            (pyTruthy ts && JSON.beq ts ((plookup meta "home_seo").getD JSON.null))
            (if pyTruthy ts && JSON.beq ts ((plookup meta "home_seo").getD JSON.null)
             then (plookup meta "home_winner").getD (.bool false)
             else (plookup meta "away_winner").getD (.bool false))
            (if pyTruthy ts && JSON.beq ts ((plookup meta "home_seo").getD JSON.null)
             then (plookup meta "home_record").getD (.str "")
             else (plookup meta "away_record").getD (.str "")) pd := by
  cases payload with
  | none =>
    simp only [parse_boxscore, Except.ok.injEq] at h
    subst h
    intro r hr
    simp at hr
  | some data =>
    rw [parse_boxscore] at h
    by_cases htr : pyTruthy data = false
    · rw [if_pos htr] at h
      simp only [Except.ok.injEq] at h
      subst h
      intro r hr
      simp at hr
    · rw [if_neg htr] at h
      obtain ⟨teamsJ, h1, h⟩ := bindExc_ok h
      obtain ⟨teamsL, h2, h⟩ := bindExc_ok h
      obtain ⟨ti, h3, h⟩ := bindExc_ok h
      obtain ⟨tbJ, h4, h⟩ := bindExc_ok h
      obtain ⟨tbs, h5, h⟩ := bindExc_ok h
      obtain ⟨rss, h6, h⟩ := bindExc_ok h
      simp only [pure, Except.pure, Except.ok.injEq] at h
      subst h
      intro r hr
      obtain ⟨rs, hrs, hrmem⟩ := List.mem_flatten.mp hr
      obtain ⟨tb, htb, hteam⟩ := mapMExc_ok_mem h6 rs hrs
      exact teamRows_ok_shape hteam r hrmem

theorem playerRowCore_plookup_fixed (game_id : String)
    (gameDate season pf pl pn pos ptype pcat tn ts : JSON) (hm : Bool) (w rcd : JSON)
    (pd : PyDict) (k : String)
    (hf : ∀ f ∈ SOCCER_STAT_FIELDS, ("stat_" ++ pyLower f) ≠ k)
    (hc : containsKey (baseRow game_id gameDate season pf pl pn pos ptype pcat tn ts hm w rcd) k = true) :
    plookup (playerRowCore game_id gameDate season pf pl pn pos ptype pcat tn ts hm w rcd pd) k =
      plookup (baseRow game_id gameDate season pf pl pn pos ptype pcat tn ts hm w rcd) k := by
  unfold playerRowCore statFieldsPhase genericPhase
  rw [genericFold_plookup k pd _ (statFold_containsKey pd k _ _ hc),
    statFold_plookup pd k _ _ hf]

theorem playerRowCore_home_fields (game_id : String)
    (gameDate season pf pl pn pos ptype pcat tn ts : JSON) (hm : Bool) (w rcd : JSON)
    (pd : PyDict) :
    plookup (playerRowCore game_id gameDate season pf pl pn pos ptype pcat tn ts hm w rcd pd)
        "team_seo" = some ts ∧
    plookup (playerRowCore game_id gameDate season pf pl pn pos ptype pcat tn ts hm w rcd pd)
        "is_home" = some (.bool hm) ∧
    plookup (playerRowCore game_id gameDate season pf pl pn pos ptype pcat tn ts hm w rcd pd)
        "team_won" = some w ∧
    plookup (playerRowCore game_id gameDate season pf pl pn pos ptype pcat tn ts hm w rcd pd)
        "team_record_at_game" = some rcd := by
  refine ⟨?_, ?_, ?_, ?_⟩
  · rw [playerRowCore_plookup_fixed game_id gameDate season pf pl pn pos ptype pcat tn ts hm w rcd
      pd "team_seo" (by decide) (by rfl)]
    rfl
  · rw [playerRowCore_plookup_fixed game_id gameDate season pf pl pn pos ptype pcat tn ts hm w rcd
      pd "is_home" (by decide) (by rfl)]
    rfl
  · rw [playerRowCore_plookup_fixed game_id gameDate season pf pl pn pos ptype pcat tn ts hm w rcd
      pd "team_won" (by decide) (by rfl)]
    rfl
  · rw [playerRowCore_plookup_fixed game_id gameDate season pf pl pn pos ptype pcat tn ts hm w rcd
      pd "team_record_at_game" (by decide) (by rfl)]
    rfl

theorem playerRowCore_lower_gameid (game_id : String)
    (gameDate season pf pl pn pos ptype pcat tn ts : JSON) (hm : Bool) (w rcd : JSON)
    (pd : PyDict) :
    plookup (lowerRow (playerRowCore game_id gameDate season pf pl pn pos ptype pcat tn ts hm w rcd pd))
      "game_id" = some (.str game_id) := by
  have hf : ∀ f ∈ SOCCER_STAT_FIELDS, ("stat_" ++ pyLower f) ≠ "game_id" := by decide
  unfold playerRowCore statFieldsPhase genericPhase baseRow
  obtain ⟨rest2, h2⟩ := statFold_head pd "game_id" (JSON.str game_id) SOCCER_STAT_FIELDS
    [("game_date", gameDate), ("season", season),
     ("player_first", pf), ("player_last", pl), ("player_num", pn), ("position", pos),
     ("stat_type", ptype), ("category", pcat), ("team_name", tn),
     ("team_seo", ts), ("is_home", JSON.bool hm), ("team_won", w),
     ("team_record_at_game", rcd)] hf
  rw [h2]
  obtain ⟨rest3, h3⟩ := genericFold_head "game_id" (JSON.str game_id) pd rest2
  rw [h3]
  have hlow : pyLower "game_id" = "game_id" := by decide
  simp [lowerRow, plookup, hlow]


theorem containsKey_setKV_self (r : List (String × JSON)) (key : String) (v : JSON) :
    containsKey (setKV r key v) key = true := by
  simp [containsKey, plookup_setKV_self]

theorem digit_ne_of {x c : Char} (hx : x.isDigit = true) (hc : c.isDigit = false) : x ≠ c := by
  intro he
  rw [he, hc] at hx
  exact Bool.false_ne_true hx

theorem mkDash_data (m d y : String) :
    (mkDash m d y).data = m.data ++ '-' :: (d.data ++ '-' :: y.data) := by
  simp [mkDash, String.data_append]

theorem strMk_eq_of_data {l : List Char} {s : String} (h : l = s.data) : String.mk l = s := by
  rw [h]

theorem concat3_inj {y m d y2 m2 d2 : List Char} {c : Char}
    (hy : y.length = y2.length) (hm : m.length = m2.length)
    (h : y ++ c :: (m ++ c :: d) = y2 ++ c :: (m2 ++ c :: d2)) :
    y = y2 ∧ m = m2 ∧ d = d2 := by
  obtain ⟨h1, h2⟩ := List.append_inj h hy
  injection h2 with hh2 h2
  obtain ⟨h3, h4⟩ := List.append_inj h2 hm
  injection h4 with hh4 h4
  exact ⟨h1, h3, h4⟩

/-
── Claim theorems ──────────────────────────────────────────────────────
-/

/-- C1 (code bug): the spec requires `parse_boxscore` to degrade
gracefully to default (empty) team info when a `teams` entry or a
`teamBoxscore` block is missing its `teamId` or carries a non-numeric
one; the code raises instead.  A `teams` entry without `teamId` hits the
raw subscript `t["teamId"]` of line 144 and raises `KeyError`; a
`teamBoxscore` block without `teamId` yields `team_id = ""` and line 148
evaluates `int("")` eagerly (it is the default argument of the outer
`.get`), raising `ValueError` before any lookup can fall back. -/
theorem claim_C1_missing_teamid_raises :
    parse_boxscore (some payloadTeamsNoId) "1" [] = .error .keyError ∧
    parse_boxscore (some payloadBoxNoId) "1" [] = .error .valueError :=
  ⟨rfl, rfl⟩

/-- C2: when the same game identifier occurs in the scoreboard results
of two different dates of a run, the deduplicated list on which `main`
invokes `parse_boxscore` (lines 271-285) contains that identifier
exactly once, so the flattener is invoked exactly once for it. -/
theorem claim_C2_dedup_exactly_once :
    ∀ (dates : List String) (resultsFor : String → List (String × PyDict))
      (gid d1 d2 : String), d1 ∈ dates → d2 ∈ dates → d1 ≠ d2 →
      gid ∈ (resultsFor d1).map Prod.fst → gid ∈ (resultsFor d2).map Prod.fst →
      (boxscoreCallIds ((dates.map resultsFor).flatten)).count gid = 1 := by
  intro dates resultsFor gid d1 d2 h1 h2 hne hg1 hg2
  unfold boxscoreCallIds
  rw [dedupGames_count gid _ []]
  have hmem : gid ∈ ((dates.map resultsFor).flatten).map Prod.fst := by
    obtain ⟨p, hp, hpe⟩ := List.mem_map.mp hg1
    exact List.mem_map.mpr
      ⟨p, List.mem_flatten.mpr ⟨resultsFor d1, List.mem_map.mpr ⟨d1, h1, rfl⟩, hp⟩, hpe⟩
  have hc : (((dates.map resultsFor).flatten).map Prod.fst).contains gid = true := by
    simpa using hmem
  have h0 : ¬(([] : List String).contains gid = true) := by simp
  rw [if_neg h0, if_pos hc]

/-- Witness for C2: two dates sharing one game id, one boxscore call. -/
theorem claim_C2_witness :
    (boxscoreCallIds (((["2024/09/01", "2024/09/02"]).map
      (fun _ => [("6348656", ([] : PyDict))])).flatten)).count "6348656" = 1 :=
  claim_C2_dedup_exactly_once ["2024/09/01", "2024/09/02"] (fun _ => [("6348656", [])])
    "6348656" "2024/09/01" "2024/09/02" (by simp) (by simp) (by decide) (by simp) (by simp)

theorem splitDash_mkDash : ∀ m d y : String, WFDate m d y →
    splitCh '-' (mkDash m d y).data = [m.data, d.data, y.data] := by
  intro m d y hwf
  obtain ⟨-, -, -, hm, hd, hy⟩ := hwf
  have hdigits : ∀ (s : String), digitStr s = true → ∀ x ∈ s.data, x ≠ '-' := by
    intro s hs x hx
    exact digit_ne_of (by simpa using (List.all_eq_true.mp hs x hx)) (by decide)
  rw [mkDash_data, splitCh_sep '-' m.data _ (hdigits m hm),
    splitCh_sep '-' d.data _ (hdigits d hd), splitCh_no_sep (hdigits y hy)]

theorem reformatDate_mkDash : ∀ m d y : String, WFDate m d y →
    reformatDate (mkDash m d y) = some (y ++ "/" ++ m ++ "/" ++ d) := by
  intro m d y hwf
  unfold reformatDate
  rw [splitDash_mkDash m d y hwf]
  exact congrArg some (strMk_eq_of_data (by simp [String.data_append]))

/-- C6: on well-formed MM-DD-YYYY inputs (two digit characters for the
month and day segments, four for the year) the schedule walker's
reformatting (lines 74-77) produces YYYY/MM/DD; the original date is
recovered by the explicit inverse `unformatDate`; and distinct
well-formed inputs produce distinct outputs, so the reformatting is a
bijection on well-formed dash dates. -/
theorem claim_C6_date_reformat_bijection :
    ∀ m d y : String, WFDate m d y →
      reformatDate (mkDash m d y) = some (y ++ "/" ++ m ++ "/" ++ d) ∧
      unformatDate (y ++ "/" ++ m ++ "/" ++ d) = some (mkDash m d y) ∧
      ∀ m2 d2 y2 : String, WFDate m2 d2 y2 →
        reformatDate (mkDash m d y) = reformatDate (mkDash m2 d2 y2) →
        mkDash m d y = mkDash m2 d2 y2 := by
  intro m d y hwf
  refine ⟨reformatDate_mkDash m d y hwf, ?_, ?_⟩
  · obtain ⟨-, -, -, hm, hd, hy⟩ := hwf
    have hdigitsSl : ∀ (s : String), digitStr s = true → ∀ x ∈ s.data, x ≠ '/' := by
      intro s hs x hx
      exact digit_ne_of (by simpa using (List.all_eq_true.mp hs x hx)) (by decide)
    unfold unformatDate
    have hdata : (y ++ "/" ++ m ++ "/" ++ d).data = y.data ++ '/' :: (m.data ++ '/' :: d.data) := by
      simp [String.data_append]
    rw [hdata, splitCh_sep '/' y.data _ (hdigitsSl y hy),
      splitCh_sep '/' m.data _ (hdigitsSl m hm), splitCh_no_sep (hdigitsSl d hd)]
    exact congrArg some (strMk_eq_of_data (by rw [mkDash_data]; simp))
  · intro m2 d2 y2 hwf2 heq
    rw [reformatDate_mkDash m d y hwf, reformatDate_mkDash m2 d2 y2 hwf2] at heq
    have heq2 : (y ++ "/" ++ m ++ "/" ++ d).data = (y2 ++ "/" ++ m2 ++ "/" ++ d2).data :=
      congrArg String.data (Option.some_inj.mp heq)
    have hform : ∀ a b c : String,
        (a ++ "/" ++ b ++ "/" ++ c).data = a.data ++ '/' :: (b.data ++ '/' :: c.data) := by
      intro a b c
      simp [String.data_append]
    rw [hform, hform] at heq2
    obtain ⟨hyl, hml, hdl, -, -, -⟩ := hwf
    obtain ⟨hyl2, hml2, hdl2, -, -, -⟩ := hwf2
    obtain ⟨hy2, hm2, hd2⟩ := concat3_inj (hdl.trans hdl2.symm) (hyl.trans hyl2.symm) heq2
    have em : m = m2 := congrArg String.mk hm2
    have ed : d = d2 := congrArg String.mk hd2
    have ey : y = y2 := congrArg String.mk hy2
    rw [em, ed, ey]

/-- Witness for C6 at the spec's example date. -/
theorem claim_C6_witness :
    reformatDate (mkDash "09" "01" "2024") = some ("2024" ++ "/" ++ "09" ++ "/" ++ "01") ∧
    unformatDate ("2024" ++ "/" ++ "09" ++ "/" ++ "01") = some (mkDash "09" "01" "2024") :=
  ⟨(claim_C6_date_reformat_bijection "09" "01" "2024"
      ⟨by decide, by decide, by decide, by decide, by decide, by decide⟩).1,
   (claim_C6_date_reformat_bijection "09" "01" "2024"
      ⟨by decide, by decide, by decide, by decide, by decide, by decide⟩).2.1⟩

/-- C8: the fetch wrapper `get` (lines 46-56) returns `None` — and,
being a total function into `Option`, never raises — on a timeout, a
connection error, and any non-200 status, and it returns a parsed
payload only for a 200 response whose body decoded. -/
theorem claim_C8_get_error_handling :
    get HttpEvent.timeout = none ∧
    get HttpEvent.connError = none ∧
    (∀ (st : Int) (body : Except Unit JSON), st ≠ 200 → get (.response st body) = none) ∧
    (∀ (ev : HttpEvent) (j : JSON), get ev = some j → ev = .response 200 (.ok j)) := by
  refine ⟨rfl, rfl, ?_, ?_⟩
  · intro st body h
    have hget : get (.response st body) =
        (if st = 200 then
          (match body with | Except.ok j => some j | Except.error _ => none)
        else none) := rfl
    rw [hget, if_neg h]
  · intro ev j h
    cases ev with
    | timeout => exact Option.noConfusion h
    | connError => exact Option.noConfusion h
    | response st body =>
      by_cases hst : st = 200
      · subst hst
        cases body with
        | ok b =>
          have hb : b = j := Option.some_inj.mp h
          rw [hb]
        | error e => exact Option.noConfusion h
      · have hget : get (.response st body) =
            (if st = 200 then
              (match body with | Except.ok j => some j | Except.error _ => none)
            else none) := rfl
        rw [hget, if_neg hst] at h
        exact Option.noConfusion h

/-- Witness for C8 at a concrete 404 response. -/
theorem claim_C8_witness : get (.response 404 (.ok JSON.null)) = none :=
  claim_C8_get_error_handling.2.2.1 404 (.ok JSON.null) (by decide)

/-- C10: the unknown-field capture (lines 184-189) never overwrites a
column that is already present in the row — in particular no stat column
created by the recognised-field loop; and when a player record carries
both `goals` and `Goals` (two recognised case-variants of the same
field, lower-casing to the same column), the variant occurring later in
`SOCCER_STAT_FIELDS` — `Goals` — provides the column's final value. -/
theorem claim_C10_stat_field_precedence :
    (∀ (p : PyDict) (r : Row) (k : String), containsKey r k = true →
        plookup (genericPhase r p) k = plookup r k) ∧
    SOCCER_STAT_FIELDS.indexOf "goals" < SOCCER_STAT_FIELDS.indexOf "Goals" ∧
    (∀ (game_id : String) (gameDate season pf pl pn pos ptype pcat tn ts : JSON)
        (hm : Bool) (w rcd : JSON) (pd : PyDict) (v1 v2 : JSON),
        plookup pd "goals" = some v1 → plookup pd "Goals" = some v2 →
        plookup (playerRowCore game_id gameDate season pf pl pn pos ptype pcat tn ts hm w rcd pd)
          "stat_goals" = some v2) := by
  refine ⟨?_, by decide, ?_⟩
  · intro p r k h
    exact genericFold_plookup k p r h
  · intro game_id gameDate season pf pl pn pos ptype pcat tn ts hm w rcd pd v1 v2 h1 h2
    unfold playerRowCore statFieldsPhase genericPhase
    have hsplit : SOCCER_STAT_FIELDS =
        ["goals", "assists", "points", "shots", "shotsOnGoal", "minutesPlayed", "goalsAgainst",
         "saves", "Shots", "ShotsOnGoal"] ++ "Goals" :: ["Assists", "Points", "MinutesPlayed",
         "GoalsAgainst", "Saves", "gp", "gs", "min"] := by rfl
    rw [hsplit, List.foldl_append, List.foldl_cons]
    have hstep : statFieldsStep pd
        (List.foldl (statFieldsStep pd)
          (baseRow game_id gameDate season pf pl pn pos ptype pcat tn ts hm w rcd)
          ["goals", "assists", "points", "shots", "shotsOnGoal", "minutesPlayed", "goalsAgainst",
           "saves", "Shots", "ShotsOnGoal"]) "Goals"
        = setKV (List.foldl (statFieldsStep pd)
            (baseRow game_id gameDate season pf pl pn pos ptype pcat tn ts hm w rcd)
            ["goals", "assists", "points", "shots", "shotsOnGoal", "minutesPlayed", "goalsAgainst",
             "saves", "Shots", "ShotsOnGoal"]) "stat_goals" v2 := by
      unfold statFieldsStep
      rw [h2]
      rfl
    rw [hstep]
    have hck : containsKey (List.foldl (statFieldsStep pd)
        (setKV (List.foldl (statFieldsStep pd)
          (baseRow game_id gameDate season pf pl pn pos ptype pcat tn ts hm w rcd)
          ["goals", "assists", "points", "shots", "shotsOnGoal", "minutesPlayed", "goalsAgainst",
           "saves", "Shots", "ShotsOnGoal"]) "stat_goals" v2)
        ["Assists", "Points", "MinutesPlayed", "GoalsAgainst", "Saves", "gp", "gs", "min"])
        "stat_goals" = true :=
      statFold_containsKey pd "stat_goals" _ _ (containsKey_setKV_self _ _ _)
    rw [genericFold_plookup "stat_goals" pd _ hck,
      statFold_plookup pd "stat_goals" _ _ (by decide)]
    exact plookup_setKV_self _ _ _

/-- Witness for C10: a present column survives the generic capture, and
with both `goals` and `Goals` present the `Goals` value wins. -/
theorem claim_C10_witness :
    plookup (genericPhase [("stat_goals", JSON.num 5)] [("goals", JSON.num 9)]) "stat_goals" =
      some (JSON.num 5) ∧
    plookup (playerRowCore "7" (.str "2024-09-01") (.str "2024") (.str "f") (.str "l")
      (.str "n") (.str "p") (.str "t") (.str "c") (.str "T") (.str "s") true (.bool true)
      (.str "r") playerTwoGoals) "stat_goals" = some (JSON.num 2) :=
  ⟨claim_C10_stat_field_precedence.1 [("goals", JSON.num 9)] [("stat_goals", JSON.num 5)]
      "stat_goals" rfl,
   claim_C10_stat_field_precedence.2.2 "7" (.str "2024-09-01") (.str "2024") (.str "f")
      (.str "l") (.str "n") (.str "p") (.str "t") (.str "c") (.str "T") (.str "s") true
      (.bool true) (.str "r") playerTwoGoals (JSON.num 1) (JSON.num 2) rfl rfl⟩

/-- C4 as stated is false on the code: when both the team's resolved
short-code and the meta's recorded home short-code are the empty string,
they are equal (so the claim classifies the team as home), yet
`parse_boxscore` classifies the team as away and takes the away winner
flag and record, because line 153 first tests the truthiness of
`team_seo`. -/
theorem claim_C4_counterexample :
    parse_boxscore (some payloadEmptySeo) "7" metaEmptySeo = .ok [rowEmptySeo] ∧
    plookup rowEmptySeo "team_seo" = some (.str "") ∧
    (plookup metaEmptySeo "home_seo").getD JSON.null = .str "" ∧
    JSON.beq (.str "") (.str "") = true ∧
    plookup rowEmptySeo "is_home" = some (.bool false) ∧
    plookup rowEmptySeo "team_won" = some (.bool false) :=
  ⟨rfl, rfl, rfl, rfl, rfl, rfl⟩

/-- C4 (amended): every row emitted by `parse_boxscore` is classified
home — taking the meta's home winner flag and home record — exactly when
the team's resolved short-code is truthy (non-empty) AND equal to the
meta's recorded home short-code, and away (away winner flag and record)
otherwise; in particular a team with an empty short-code is always
classified away, even when the home short-code is also empty. -/
theorem claim_C4_amended_home_away :
    ∀ (payload : Option JSON) (gid : String) (meta : PyDict) (rows : List Row),
      parse_boxscore payload gid meta = .ok rows →
      ∀ r ∈ rows, ∃ ts : JSON,
        plookup r "team_seo" = some ts ∧
        plookup r "is_home" = some (.bool (pyTruthy ts &&
          JSON.beq ts ((plookup meta "home_seo").getD JSON.null))) ∧
        plookup r "team_won" = some (if pyTruthy ts &&
            JSON.beq ts ((plookup meta "home_seo").getD JSON.null)
          then (plookup meta "home_winner").getD (.bool false)
          else (plookup meta "away_winner").getD (.bool false)) ∧
        plookup r "team_record_at_game" = some (if pyTruthy ts &&
            JSON.beq ts ((plookup meta "home_seo").getD JSON.null)
          then (plookup meta "home_record").getD (.str "")
          else (plookup meta "away_record").getD (.str "")) := by
  intro payload gid meta rows h r hr
  obtain ⟨gameDate, season, pf, pl, pn, pos, ptype, pcat, tn, ts, pd, hshape⟩ :=
    parse_boxscore_ok_shape h r hr
  subst hshape
  obtain ⟨h1, h2, h3, h4⟩ :=
    playerRowCore_home_fields gid gameDate season pf pl pn pos ptype pcat tn ts _ _ _ pd
  exact ⟨ts, h1, h2, h3, h4⟩

/-- Witness for C4 (amended) at a concrete matching non-empty seo. -/
theorem claim_C4_witness :
    ∃ ts : JSON,
      plookup rowAlphaSeo "team_seo" = some ts ∧
      plookup rowAlphaSeo "is_home" = some (.bool (pyTruthy ts &&
        JSON.beq ts ((plookup metaAlphaSeo "home_seo").getD JSON.null))) ∧
      plookup rowAlphaSeo "team_won" = some (if pyTruthy ts &&
          JSON.beq ts ((plookup metaAlphaSeo "home_seo").getD JSON.null)
        then (plookup metaAlphaSeo "home_winner").getD (.bool false)
        else (plookup metaAlphaSeo "away_winner").getD (.bool false)) ∧
      plookup rowAlphaSeo "team_record_at_game" = some (if pyTruthy ts &&
          JSON.beq ts ((plookup metaAlphaSeo "home_seo").getD JSON.null)
        then (plookup metaAlphaSeo "home_record").getD (.str "")
        else (plookup metaAlphaSeo "away_record").getD (.str "")) :=
  claim_C4_amended_home_away (some payloadAlphaSeo) "7" metaAlphaSeo [rowAlphaSeo] rfl
    rowAlphaSeo (List.mem_singleton.mpr rfl)

/-- C9: every row `parse_boxscore` emits carries the (string) game id in
its `game_id` column, and `aggregate_player_season` gives every output
row `games_played ≥ 1` whenever every input row has a non-null `game_id`
cell — so for program-generated rows the zero-denominator guards are
never reached with a zero `games_played`: the pandas `count` counts the
rows of the group, and every group formed is non-empty. -/
theorem claim_C9_games_played_positive :
    (∀ (payload : Option JSON) (gid : String) (meta : PyDict) (rows : List Row),
        parse_boxscore payload gid meta = .ok rows →
        ∀ r ∈ rows, plookup (lowerRow r) "game_id" = some (.str gid)) ∧
    (∀ rows : List Row,
        (∀ r ∈ rows, ∃ s, plookup (lowerRow r) "game_id" = some (JSON.str s)) →
        ∀ a ∈ aggregate_player_season rows, 1 ≤ a.games_played) := by
  constructor
  · intro payload gid meta rows h r hr
    obtain ⟨gameDate, season, pf, pl, pn, pos, ptype, pcat, tn, ts, pd, hshape⟩ :=
      parse_boxscore_ok_shape h r hr
    subst hshape
    exact playerRowCore_lower_gameid gid gameDate season pf pl pn pos ptype pcat tn ts _ _ _ pd
  · intro rows hgid a ha
    unfold aggregate_player_season at ha
    by_cases hemp : rows.isEmpty
    · rw [if_pos hemp] at ha
      simp at ha
    · rw [if_neg hemp] at ha
      obtain ⟨k, hk, hak⟩ := List.mem_map.mp ha
      have hk2 : k ∈ (rows.map lowerRow).filterMap keyOf := dedupKeys_subset _ [] k hk
      obtain ⟨r2, hr2, hkey⟩ := List.mem_filterMap.mp hk2
      obtain ⟨r0, hr0, hlow⟩ := List.mem_map.mp hr2
      subst hak
      show 1 ≤ (groupRows (rows.map lowerRow) k).countP (fun r => cellNonNA r "game_id")
      have hgrp : r2 ∈ groupRows (rows.map lowerRow) k := by
        unfold groupRows
        refine List.mem_filter.mpr ⟨hr2, ?_⟩
        rw [hkey]
        exact jlistBeq_refl k
      have hna : cellNonNA r2 "game_id" = true := by
        obtain ⟨s, hs⟩ := hgid r0 hr0
        rw [hlow] at hs
        unfold cellNonNA
        rw [hs]
      have : 0 < (groupRows (rows.map lowerRow) k).countP (fun r => cellNonNA r "game_id") :=
        List.countP_pos_iff.mpr ⟨r2, hgrp, hna⟩
      exact this

/-- Witness for C9: a parsed row carries its game id, and a concrete
one-row aggregation has `games_played = 1 ≥ 1`. -/
theorem claim_C9_witness :
    plookup (lowerRow rowAlphaSeo) "game_id" = some (.str "7") ∧
    1 ≤ aggPlain.games_played :=
  ⟨claim_C9_games_played_positive.1 (some payloadAlphaSeo) "7" metaAlphaSeo [rowAlphaSeo] rfl
      rowAlphaSeo (List.mem_singleton.mpr rfl),
   claim_C9_games_played_positive.2 [rowPlain]
      (fun r hr => ⟨"7", by rw [List.mem_singleton.mp hr]; rfl⟩)
      aggPlain (by
        rw [show aggregate_player_season [rowPlain] = [aggPlain] from rfl]
        exact List.mem_singleton.mpr rfl)⟩

/-- C3: an aggregated row records `production_per_game` exactly when
both a `stat_goals` and a `stat_assists` column are present among the
input rows' stat columns; its value is the group's goal sum (missing
coerced cells contributing 0) plus one half of the assist sum, divided
by `games_played`, with a zero `games_played` still guarded to a missing
value; with either column absent the field is absent. -/
theorem claim_C3_production_per_game :
    ∀ (rows : List Row) (a : AggRow), a ∈ aggregate_player_season rows →
      a.production_per_game =
        (if (statColsOf rows).contains "stat_goals" && (statColsOf rows).contains "stat_assists"
         then some (if a.games_played = 0 then none
              else some (PRat.div
                (PRat.add (sumLookup a "stat_goals")
                  (PRat.mul pHalf (sumLookup a "stat_assists")))
                (PRat.ofInt a.games_played)))
         else none) := by
  intro rows a ha
  unfold aggregate_player_season at ha
  by_cases hemp : rows.isEmpty
  · rw [if_pos hemp] at ha
    simp at ha
  · rw [if_neg hemp] at ha
    obtain ⟨k, hk, hak⟩ := List.mem_map.mp ha
    subst hak
    by_cases hga : ((statColsOf rows).contains "stat_goals" &&
        (statColsOf rows).contains "stat_assists") = true
    · have hand := hga
      rw [Bool.and_eq_true] at hand
      obtain ⟨hG, hA⟩ := hand
      have hGm : "stat_goals" ∈ statColsOf rows := by simpa using hG
      have hAm : "stat_assists" ∈ statColsOf rows := by simpa using hA
      simp only [mkAggRow, sumLookup]
      rw [qlookup_map_self (statColsOf rows) "stat_goals" _ hGm,
        qlookup_map_self (statColsOf rows) "stat_assists" _ hAm]
      simp only [hga, if_true, Option.getD_some]
    · have hgf : ((statColsOf rows).contains "stat_goals" &&
          (statColsOf rows).contains "stat_assists") = false := by simpa using hga
      simp only [mkAggRow]
      rw [hgf]
      simp

/-- Witness for C3 at a concrete one-row input with both columns. -/
theorem claim_C3_witness :
    aggGoals.production_per_game =
      (if (statColsOf [rowGoals]).contains "stat_goals" &&
          (statColsOf [rowGoals]).contains "stat_assists"
       then some (if aggGoals.games_played = 0 then none
            else some (PRat.div
              (PRat.add (sumLookup aggGoals "stat_goals")
                (PRat.mul pHalf (sumLookup aggGoals "stat_assists")))
              (PRat.ofInt aggGoals.games_played)))
       else none) :=
  claim_C3_production_per_game [rowGoals] aggGoals (by
    rw [show aggregate_player_season [rowGoals] = [aggGoals] from rfl]
    exact List.mem_singleton.mpr rfl)

/-- C7: in `aggregate_player_season`, a group whose `games_played` is 0
gets a missing `win_rate`, and a missing `start_rate` whenever the
`start_rate` column exists at all — never an error and never an
infinity, the guard being `.replace(0, pd.NA)` on the denominator
(lines 233 and 236). -/
theorem claim_C7_zero_games_rates_missing :
    ∀ (rows : List Row) (a : AggRow), a ∈ aggregate_player_season rows →
      a.games_played = 0 →
      a.win_rate = none ∧ ∀ sr, a.start_rate = some sr → sr = none := by
  intro rows a ha hgp
  unfold aggregate_player_season at ha
  by_cases hemp : rows.isEmpty
  · rw [if_pos hemp] at ha
    simp at ha
  · rw [if_neg hemp] at ha
    obtain ⟨k, hk, hak⟩ := List.mem_map.mp ha
    subst hak
    simp only [mkAggRow] at hgp
    constructor
    · simp only [mkAggRow]
      rw [if_pos hgp]
    · intro sr hsr
      simp only [mkAggRow] at hsr
      obtain ⟨e, he, hfe⟩ := Option.map_eq_some'.mp hsr
      rw [← hfe, if_pos hgp]

/-- Witness for C7 at a concrete group whose `game_id` cell is null, so
its pandas count is 0. -/
theorem claim_C7_witness : aggNullGid.win_rate = none :=
  (claim_C7_zero_games_rates_missing [rowNullGid] aggNullGid (by
    rw [show aggregate_player_season [rowNullGid] = [aggNullGid] from rfl]
    exact List.mem_singleton.mpr rfl) rfl).1

theorem exists_obj_of_isObjB {j : JSON} (h : isObjB j = true) : ∃ kvs, j = .obj kvs := by
  cases j with
  | obj kvs => exact ⟨kvs, rfl⟩
  | null => simp [isObjB] at h
  | bool b => simp [isObjB] at h
  | num n => simp [isObjB] at h
  | str s => simp [isObjB] at h
  | arr xs => simp [isObjB] at h

theorem exists_str_of_isStrB {j : JSON} (h : isStrB j = true) : ∃ s, j = .str s := by
  cases j with
  | str s => exact ⟨s, rfl⟩
  | null => simp [isStrB] at h
  | bool b => simp [isStrB] at h
  | num n => simp [isStrB] at h
  | arr xs => simp [isStrB] at h
  | obj kvs => simp [isStrB] at h

theorem goodSide_shape {j : JSON} (h : goodSide j = true) :
    ∃ kvs hn, j = .obj kvs ∧ (plookup kvs "names").getD (.obj []) = .obj hn := by
  cases j with
  | obj kvs =>
    rw [goodSide] at h
    obtain ⟨hn, hhn⟩ := exists_obj_of_isObjB h
    exact ⟨kvs, hn, rfl, hhn⟩
  | null => simp [goodSide] at h
  | bool b => simp [goodSide] at h
  | num n => simp [goodSide] at h
  | str s => simp [goodSide] at h
  | arr xs => simp [goodSide] at h

theorem buildMeta_ok (fid : String) (g : List (String × JSON)) (h : goodGame g = true) :
    ∃ m, buildMeta fid (.obj g) = .ok m := by
  rw [goodGame] at h
  simp only [Bool.and_eq_true] at h
  obtain ⟨⟨hu, hhome⟩, haway⟩ := h
  obtain ⟨hkvs, hn, hh, hhn⟩ := goodSide_shape hhome
  obtain ⟨akvs, an, haw, han⟩ := goodSide_shape haway
  unfold buildMeta
  simp only [pyDictGet, Bind.bind, Except.bind, hh, haw, hhn, han, pure, Except.pure]
  exact ⟨_, rfl⟩

theorem claim_C5_helper :
    ∀ (items : List JSON), (∀ it ∈ items, goodItem it = true) →
      ∃ res, scoreboardEntries items = .ok res ∧
        res.map Prod.fst = items.filterMap (fun it =>
          if pyIsdigit (lastSeg (urlOf it)) then some (lastSeg (urlOf it)) else none) := by
  intro items
  induction items with
  | nil => intro _; exact ⟨[], rfl, rfl⟩
  | cons it rest ih =>
    intro hgood
    have hit : goodItem it = true := hgood it (by simp)
    have hrest := fun x hx => hgood x (List.mem_cons_of_mem _ hx)
    obtain ⟨res, hres, hmap⟩ := ih hrest
    cases it with
    | obj kvs =>
      cases hg : (plookup kvs "game").getD (.obj []) with
      | obj gkvs =>
        have hgg : goodGame gkvs = true := by
          rw [goodItem, hg] at hit
          exact hit
        have hurl : ∃ u, (plookup gkvs "url").getD (.str "") = .str u := by
          rw [goodGame] at hgg
          simp only [Bool.and_eq_true] at hgg
          exact exists_str_of_isStrB hgg.1.1
        obtain ⟨u, hu⟩ := hurl
        have hgame : pyDictGet (JSON.obj kvs) "game" (.obj []) = .ok (.obj gkvs) := by
          simp [pyDictGet, hg]
        have hurlJ : pyDictGet (JSON.obj gkvs) "url" (.str "") = .ok (.str u) := by
          simp [pyDictGet, hu]
        have hurlOf : urlOf (JSON.obj kvs) = u := by
          simp only [urlOf, hg, hu]
        rw [scoreboardEntries]
        simp only [hgame, hurlJ, Bind.bind, Except.bind]
        by_cases hemp : pyTruthy (.str u) = false
        · rw [if_pos hemp]
          refine ⟨res, hres, ?_⟩
          rw [List.filterMap_cons, hurlOf]
          have hue : u = "" := (String.isEmpty_iff u).mp (by simpa [pyTruthy] using hemp)
          have hd : pyIsdigit (lastSeg u) = false := by
            rw [hue]
            rfl
          rw [hd]
          simpa using hmap
        · rw [if_neg hemp]
          simp only [pyAsStr, Bind.bind, Except.bind]
          by_cases hd : pyIsdigit (lastSeg u) = false
          · rw [if_pos hd]
            refine ⟨res, hres, ?_⟩
            rw [List.filterMap_cons, hurlOf, hd]
            simpa using hmap
          · rw [if_neg hd]
            obtain ⟨m, hm⟩ := buildMeta_ok (lastSeg u) gkvs hgg
            rw [hm]
            simp only [Bind.bind, Except.bind]
            rw [hres]
            refine ⟨(lastSeg u, m) :: res, rfl, ?_⟩
            rw [List.filterMap_cons, hurlOf]
            have hdt : pyIsdigit (lastSeg u) = true := by
              simpa using hd
            rw [hdt]
            simp [hmap]
      | null =>
        rw [goodItem, hg] at hit
        simp at hit
      | bool b =>
        rw [goodItem, hg] at hit
        simp at hit
      | num n =>
        rw [goodItem, hg] at hit
        simp at hit
      | str s =>
        rw [goodItem, hg] at hit
        simp at hit
      | arr xs =>
        rw [goodItem, hg] at hit
        simp at hit
    | null => simp [goodItem] at hit
    | bool b => simp [goodItem] at hit
    | num n => simp [goodItem] at hit
    | str s => simp [goodItem] at hit
    | arr xs => simp [goodItem] at hit

/-- C5: for a scoreboard payload whose entries are well-shaped dicts,
`get_game_ids_for_date` keeps an entry exactly when the final path
segment of its `url` is a non-empty all-digit string, and uses that
segment as the game identifier; entries with an empty url or a final
segment containing a non-digit are discarded. -/
theorem claim_C5_gameid_extraction :
    ∀ (items : List JSON), (∀ it ∈ items, goodItem it = true) →
      ∃ res, get_game_ids_for_date (some (JSON.obj [("games", JSON.arr items)])) = .ok res ∧
        res.map Prod.fst = items.filterMap (fun it =>
          if pyIsdigit (lastSeg (urlOf it)) then some (lastSeg (urlOf it)) else none) := by
  intro items hgood
  have hred : get_game_ids_for_date (some (JSON.obj [("games", JSON.arr items)])) =
      scoreboardEntries items := rfl
  rw [hred]
  exact claim_C5_helper items hgood

/-- Witness for C5: a numeric-segment url is kept with that segment as
the id; a non-numeric one is discarded. -/
theorem claim_C5_witness :
    ∃ res, get_game_ids_for_date (some (JSON.obj [("games", JSON.arr [itemKeep, itemDrop])])) =
      .ok res ∧ res.map Prod.fst = ["6348656"] := by
  obtain ⟨res, h1, h2⟩ := claim_C5_gameid_extraction [itemKeep, itemDrop] (by decide)
  refine ⟨res, h1, ?_⟩
  rw [h2]
  rfl
